import Mathlib

/-!
Verification model of the libmatfile MAT-file decoder (src/matfile.c, src/tape.c).

Conventions of the shallow embedding:

* Byte buffers are `List Nat`, one entry per byte; multi-byte fields are read
  little-endian, matching the struct/union reinterpretation in matfile.h on a
  little-endian machine (the code performs no byte swapping during parsing).
* Machine integers are Nat/Int with explicit wrap-around: the int32 product of
  dimensions wraps at 2^31 (two-complement), size_t arithmetic wraps at 2^64.
* malloc/realloc are modelled as always succeeding; allocation-failure paths of
  the C code are therefore never taken in the model.  (tape.c:67 even tests an
  undeclared identifier on that path, so it never compiled.)
* A read past the end of the modelled buffer - undefined behavior in the C
  code - is a distinct outcome `oob`, never a clean failure.
* The zlib streaming codec is an external collaborator (spec section 1 and
  4.4); it is modelled by an oracle `inflate : List Nat -> Option (List Nat)`
  giving the full decompressed stream of a compressed payload (`none` for any
  codec failure).  The element-level protocol around the codec - tag
  materialization, inner type validation, exactly-one-inner-element
  completion - follows decompress_data_element (matfile.c:190-292), with the
  incremental stream mechanics abstracted into the requirement that the
  decompressed stream is exactly tag plus declared inner payload.
* The unused endianness parameter of parse_data_elements (never read by the
  routine, matfile.c:450-545) is omitted.
-/

namespace Matfile

/-- Little-endian 16-bit read at byte index i (out-of-range bytes read as 0;
bounds are checked separately where the C code would fault). -/
def u16At (bs : List Nat) (i : Nat) : Nat :=
  bs.getD i 0 + 256 * bs.getD (i + 1) 0

/-- Little-endian 32-bit read at byte index i. -/
def u32At (bs : List Nat) (i : Nat) : Nat :=
  u16At bs i + 65536 * u16At bs (i + 2)

/-- Little-endian 64-bit read at byte index i. -/
def u64At (bs : List Nat) (i : Nat) : Nat :=
  u32At bs i + 4294967296 * u32At bs (i + 4)

/-- Bounds-checked 32-bit read: none models a read past the real buffer end. -/
def readU32 (bs : List Nat) (i : Nat) : Option Nat :=
  if i + 4 ≤ bs.length then some (u32At bs i) else none

/-- Bounds-checked 64-bit read. -/
def readU64 (bs : List Nat) (i : Nat) : Option Nat :=
  if i + 8 ≤ bs.length then some (u64At bs i) else none

/-- Bounds-checked memcpy of n bytes starting at index i. -/
def readBytes (bs : List Nat) (i n : Nat) : Option (List Nat) :=
  if i + n ≤ bs.length then some ((bs.drop i).take n) else none

/-- Signed reinterpretation of an unsigned 32-bit value (two-complement). -/
def i32ofU32 (u : Nat) : Int :=
  if u < 2147483648 then (u : Int) else (u : Int) - 4294967296

/-- Interpret a byte list as consecutive little-endian int32 values, as the
dimension buffer copied by parse_array (matfile.c:354-362) is interpreted by
parse_numerical_part (matfile.c:600-602). -/
def i32sOfBytes : List Nat → List Int
  | a :: b :: c :: d :: rest =>
      i32ofU32 (a + 256 * b + 65536 * c + 16777216 * d) :: i32sOfBytes rest
  | _ => []

/-- Padding to the next 8-byte boundary, computed as in matfile.c:363
as (MF_ALIGNMENT - n % MF_ALIGNMENT) % MF_ALIGNMENT. -/
def padOf (n : Nat) : Nat := (8 - n % 8) % 8

/-- size_t subtraction (wraps at 2^64), as in rest_size = length - offset
(matfile.c:403). -/
def sizeTsub (a b : Nat) : Nat :=
  if b ≤ a then a - b else 18446744073709551616 - (b - a)

/-- Conversion of a (possibly negative) int to size_t, modulo 2^64. -/
def sizeTofInt (x : Int) : Nat := (x % 18446744073709551616).toNat

/-- Wrap an integer into the int32 two-complement range, modelling the int
arithmetic of the dimension product in parse_numerical_part. -/
def i32wrap (x : Int) : Int :=
  (x + 2147483648) % 4294967296 - 2147483648

/-- Tape state (tape.c struct _tape_t): cur_length and max_length.  The byte
contents are irrelevant to the tape claims; the allocation size of the backing
store always equals max_length. -/
structure Tape where
  curLength : Nat
  maxLength : Nat
deriving DecidableEq

/-- tape_create (tape.c:18-35): fresh tape with used length 0. -/
def tape_create (length : Nat) : Tape := ⟨0, length⟩

/-- tape_push (tape.c:62-75): when the reservation would exceed capacity the
capacity is doubled exactly once, then cur_length is increased by size
(allocation modelled as succeeding). -/
def tape_push (t : Tape) (size : Nat) : Tape :=
  if t.curLength + size > t.maxLength then ⟨t.curLength + size, 2 * t.maxLength⟩
  else ⟨t.curLength + size, t.maxLength⟩

/-- tape_pop (tape.c:53-60): shrink used length by size, clamped at zero. -/
def tape_pop (t : Tape) (size : Nat) : Tape := ⟨t.curLength - size, t.maxLength⟩

/-- tape_purge (tape.c:77-94): the length of the buffer handed to the caller;
the shrinking realloc runs only when cur_length < max_length, otherwise the
buffer keeps its allocated max_length bytes. -/
def tape_purge_len (t : Tape) : Nat :=
  if t.curLength < t.maxLength then t.curLength else t.maxLength

/-- Fold a sequence of push reservations over a tape. -/
def tape_pushAll (t : Tape) (ns : List Nat) : Tape := ns.foldl tape_push t

/-- matfile_is_small (matfile.c:718-722) on the raw 8 tag bytes: the first 8
bytes reinterpreted as (size:u16, type:u16, payload:u32); small iff both size
and type are non-zero (macro IS_SMALL). -/
def matfile_is_small (tag : List Nat) : Bool :=
  u16At tag 0 != 0 && u16At tag 2 != 0

/-- matfile_is_large (matfile.c:724-726): the negation of the IS_SMALL macro
on the same reinterpreted fields. -/
def matfile_is_large (tag : List Nat) : Bool :=
  !(u16At tag 0 != 0 && u16At tag 2 != 0)

/-- matfile_is_numerical (matfile.c:728-734) on the large-form type code. -/
def matfile_is_numerical_type (ty : Nat) : Bool :=
  (decide (1 ≤ ty) && decide (ty ≤ 7)) || ty == 9 || ty == 12 || ty == 13

/-- data_type_size table (matfile.c:59-78), indexed by type code (the C array
is indexed by type - 1); reserved and non-numerical entries are 0. -/
def data_type_size (ty : Nat) : Nat :=
  if ty = 1 then 1
  else if ty = 2 then 1
  else if ty = 3 then 2
  else if ty = 4 then 2
  else if ty = 5 then 4
  else if ty = 6 then 4
  else if ty = 7 then 4
  else if ty = 9 then 8
  else if ty = 12 then 8
  else if ty = 13 then 8
  else 0

/-- Numerical part value of an array: uninit models the stack garbage left in
the unsupported-class path of parse_array (the local array.pr/array.pi are
never written there); null models an explicit NULL assignment. -/
inductive NumPart where
  | uninit : NumPart
  | null : NumPart
  | vals : List Nat → NumPart
deriving DecidableEq

/-- Failure kinds of parse_numerical_part, one per stderr message
(matfile.c:583, 588, 593, 609); the C function returns NULL for all of them. -/
inductive NpErr where
  | tooSmall : NpErr
  | notNumerical : NpErr
  | sizeMismatch : NpErr
deriving DecidableEq

/-- Result of parse_numerical_part: oob flags an out-of-bounds read, fail is
the NULL return, ok carries the copied payload and the offset just past it. -/
inductive NpResult where
  | oob : NpResult
  | fail : NpErr → NpResult
  | ok : List Nat → Nat → NpResult
deriving DecidableEq

/-- Total number of elements computed by parse_numerical_part
(matfile.c:598-602): an int (32-bit) product over the dimensions, each step
wrapping in two-complement. -/
def noelemsOf (dims : List Int) : Int :=
  dims.foldl (fun p d => i32wrap (p * d)) 1

/-- parse_numerical_part (matfile.c:573-625).  real is the actual remaining
byte buffer, len the length argument (which the caller may overstate, see
parse_numerical_array).  Checks mirror the C order: length guard, size read,
second length guard, numeric-type guard, then the declared-vs-computed size
comparison, then the payload copy. -/
def parse_numerical_part (dims : List Int) (real : List Nat) (len : Nat) :
    NpResult :=
  if len < 8 then .fail .tooSmall
  else
    match readU32 real 4 with
    | none => .oob
    | some sz =>
      if len < 8 + sz then .fail .tooSmall
      else
        match readU32 real 0 with
        | none => .oob
        | some ty =>
          if ! matfile_is_numerical_type ty then .fail .notNumerical
          else
            let size :=
              (data_type_size ty * sizeTofInt (noelemsOf dims)) %
                18446744073709551616
            if sz ≠ size then .fail .sizeMismatch
            else
              match readBytes real 8 sz with
              | none => .oob
              | some payload => .ok payload (8 + sz)

/-- Result of parse_numerical_array (NULL collapses to fail, as in C). -/
inductive NaResult where
  | oob : NaResult
  | fail : NaResult
  | ok : NumPart → NumPart → NaResult
deriving DecidableEq

/-- parse_numerical_array (matfile.c:547-571).  Note the C passes the length
pointer to both parts but parse_numerical_part never updates it, so the
imaginary part is validated against the original length. -/
def parse_numerical_array (dims : List Int) (real : List Nat) (len : Nat) :
    NaResult :=
  match parse_numerical_part dims real len with
  | .oob => .oob
  | .fail _ => .fail
  | .ok pre next =>
    if next = len then .ok (.vals pre) .null
    else
      match parse_numerical_part dims (real.drop next) len with
      | .oob => .oob
      | .fail _ => .fail
      | .ok pim _ => .ok (.vals pre) (.vals pim)

/-- Decoded matrix payload (matfile_array_t): flags, dimensions, name and the
two numerical parts (pr, pi in the C struct). -/
structure MArray where
  flags : Nat
  nodims : Nat
  dims : List Int
  namelen : Nat
  name : List Nat
  pr : NumPart
  pim : NumPart
deriving DecidableEq

/-- Result of parse_array: oob for an out-of-bounds read, fail for NULL. -/
inductive ArrResult where
  | oob : ArrResult
  | fail : ArrResult
  | ok : MArray → ArrResult
deriving DecidableEq

/-- Class dispatch of parse_array (matfile.c:401-448): classes 1-5
(cell/struct/object/char/sparse) print a warning and BREAK, falling through to
return a partial array whose numerical parts are uninitialized stack memory;
classes 6-15 run parse_numerical_array; anything else returns NULL. -/
def parseArrayClass (flags nodims : Nat) (dims : List Int) (namelen : Nat)
    (name : List Nat) (rest : List Nat) (restLen : Nat) : ArrResult :=
  let cls := flags % 256
  if 1 ≤ cls ∧ cls ≤ 5 then
    .ok ⟨flags, nodims, dims, namelen, name, .uninit, .uninit⟩
  else if 6 ≤ cls ∧ cls ≤ 15 then
    match parse_numerical_array dims rest restLen with
    | .oob => .oob
    | .fail => .fail
    | .ok a b => .ok ⟨flags, nodims, dims, namelen, name, a, b⟩
  else .fail

/-- Name sub-element of parse_array (matfile.c:366-399): tag must be type
miINT8; the name bytes are copied and the cursor advances past padding.  The
rest length passed on is the size_t difference length - offset, which wraps
when padding pushes the offset past the declared length. -/
def parseArrayName (real : List Nat) (claimed flags nodims : Nat)
    (dims : List Int) (off1 : Nat) : ArrResult :=
  if claimed < off1 + 8 then .fail
  else
    match readU32 real off1 with
    | none => .oob
    | some nty =>
      if nty ≠ 1 then .fail
      else
        match readU32 real (off1 + 4) with
        | none => .oob
        | some nsz =>
          if claimed < off1 + 8 + nsz then .fail
          else
            match readBytes real (off1 + 8) nsz with
            | none => .oob
            | some name =>
              parseArrayClass flags nodims dims nsz name
                (real.drop (off1 + 8 + nsz + padOf nsz))
                (sizeTsub claimed (off1 + 8 + nsz + padOf nsz))

/-- parse_array (matfile.c:294-448).  real is the actual byte region behind
the payload pointer, claimed the length argument; all C length checks compare
against claimed while memory reads touch real.  Sub-elements in order: array
flags (type miUINT32, size exactly 8), dimensions (type miINT32, size a
multiple of 4), name (type miINT8), then the class dispatch. -/
def parse_array (real : List Nat) (claimed : Nat) : ArrResult :=
  if claimed < 16 then .fail
  else
    match readU32 real 0 with
    | none => .oob
    | some fty =>
      if fty ≠ 6 then .fail
      else
        match readU32 real 4 with
        | none => .oob
        | some fsz =>
          if fsz ≠ 8 then .fail
          else
            match readU64 real 8 with
            | none => .oob
            | some flags =>
              if claimed < 32 then .fail
              else
                match readU32 real 16 with
                | none => .oob
                | some dty =>
                  if dty ≠ 5 then .fail
                  else
                    match readU32 real 20 with
                    | none => .oob
                    | some dsz =>
                      if dsz % 4 ≠ 0 then .fail
                      else if claimed < 24 + dsz then .fail
                      else
                        match readBytes real 24 dsz with
                        | none => .oob
                        | some dimBytes =>
                          parseArrayName real claimed flags (dsz / 4)
                            (i32sOfBytes dimBytes) (24 + dsz + padOf dsz)

/-- Payload of a decoded element: a matrix (the unchecked parse_array result,
none when parse_array returned NULL) or an owned byte copy. -/
inductive ElemPayload where
  | arr : Option MArray → ElemPayload
  | bytes : List Nat → ElemPayload
deriving DecidableEq

/-- One decoded data element: small form keeps the inline tag fields, large
form keeps the (possibly decompression-replaced) type, size and payload. -/
inductive Element where
  | small : Nat → Nat → Nat → Element
  | large : Nat → Nat → ElemPayload → Element
deriving DecidableEq

/-- Result of parse_data_elements: ok with the element list from the purged
tape, fail for the NULL return, oob for an out-of-bounds read, fuelOut is the
(unreached for adequate fuel) recursion bound. -/
inductive PdResult where
  | ok : List Element → PdResult
  | fail : PdResult
  | oob : PdResult
  | fuelOut : PdResult
deriving DecidableEq

/-- decompress_data_element (matfile.c:190-292), with the zlib stream
abstracted by the inflate oracle.  On the decompressed stream d the routine
materializes one large tag, validates its type code against [1, 19), and
succeeds exactly when the stream is the tag plus the declared inner payload
(the trailing-input check, matfile.c:274-280, rejects anything longer, and a
shorter stream cannot fill the requested payload).  Returns the inner
(type, size, payload) that replace the element fields in place. -/
def decompress_data_element (inflate : List Nat → Option (List Nat))
    (compressed : List Nat) : Option (Nat × Nat × List Nat) :=
  match inflate compressed with
  | none => none
  | some d =>
    if d.length < 8 then none
    else
      let ity := u32At d 0
      let isz := u32At d 4
      if ity < 1 ∨ 19 ≤ ity then none
      else if d.length ≠ 8 + isz then none
      else some (ity, isz, d.drop 8)

/-- Main loop of parse_data_elements (matfile.c:450-545), fuel-indexed (one
fuel unit per iteration; every iteration advances the offset by at least 8, so
fuel length+1 can never run out).  Behaviors mirrored from the C:
* the 8-byte tag memcpy and all payload reads are bounds-checked against the
  real buffer, since the C checks the declared size against nothing;
* a small tag records the inline element and advances by 8;
* a large tag with type outside [1, 19) fails the whole parse (NULL);
* miCOMPRESSED inflates, replaces type/size in place, advances by 8 plus the
  original unpadded declared size, and for a non-matrix inner element copies
  data_size = ORIGINAL compressed byte-count bytes out of the inflated
  payload (matfile.c:522-532), truncating or over-reading it;
* other types pad the declared size to the 8-byte boundary and copy that many
  bytes;
* a matrix element stores the parse_array result WITHOUT checking it
  (matfile.c:517-519): a NULL array is recorded and parsing continues. -/
def parseLoop (inflate : List Nat → Option (List Nat)) (bytes : List Nat)
    (length : Nat) : Nat → Nat → List Element → PdResult
  | 0, _, _ => .fuelOut
  | fuel + 1, offset, acc =>
    if offset < length then
      match readBytes bytes offset 8 with
      | none => .oob
      | some tag =>
        if matfile_is_small tag then
          parseLoop inflate bytes length fuel (offset + 8)
            (acc ++ [.small (u16At tag 0) (u16At tag 2) (u32At tag 4)])
        else
          let lty := u32At tag 0
          let lsz := u32At tag 4
          if lty < 1 ∨ 19 ≤ lty then .fail
          else if lty = 15 then
            match readBytes bytes (offset + 8) lsz with
            | none => .oob
            | some comp =>
              match decompress_data_element inflate comp with
              | none => .fail
              | some (ity, isz, ipay) =>
                if ity = 14 then
                  match parse_array ipay isz with
                  | .oob => .oob
                  | .fail =>
                    parseLoop inflate bytes length fuel (offset + 8 + lsz)
                      (acc ++ [.large 14 isz (.arr none)])
                  | .ok a =>
                    parseLoop inflate bytes length fuel (offset + 8 + lsz)
                      (acc ++ [.large 14 isz (.arr (some a))])
                else
                  if lsz ≤ ipay.length then
                    parseLoop inflate bytes length fuel (offset + 8 + lsz)
                      (acc ++ [.large ity isz (.bytes (ipay.take lsz))])
                  else .oob
          else
            let dsize := lsz + padOf lsz
            if lty = 14 then
              match parse_array (bytes.drop (offset + 8)) lsz with
              | .oob => .oob
              | .fail =>
                parseLoop inflate bytes length fuel (offset + 8 + dsize)
                  (acc ++ [.large 14 lsz (.arr none)])
              | .ok a =>
                parseLoop inflate bytes length fuel (offset + 8 + dsize)
                  (acc ++ [.large 14 lsz (.arr (some a))])
            else
              match readBytes bytes (offset + 8) dsize with
              | none => .oob
              | some pay =>
                parseLoop inflate bytes length fuel (offset + 8 + dsize)
                  (acc ++ [.large lty lsz (.bytes pay)])
    else .ok acc

/-- parse_data_elements (matfile.c:450-545); matfile_parse (matfile.c:736-743)
is a direct wrapper around it. -/
def parse_data_elements (inflate : List Nat → Option (List Nat))
    (bytes : List Nat) (length : Nat) : PdResult :=
  parseLoop inflate bytes length (length + 1) 0 []

/-- Prefix-overflow-freedom of the int32 dimension product: every partial
product stays inside [0, 2^31). -/
def dimsProdOkAux : Int → List Int → Bool
  | _, [] => true
  | p, d :: rest =>
    (decide (0 ≤ p * d) && decide (p * d < 2147483648)) &&
      dimsProdOkAux (p * d) rest

/-- Overflow-freedom of the dimension product starting from 1. -/
def dimsProdOk (dims : List Int) : Bool := dimsProdOkAux 1 dims

/-- Concrete matrix payload for the C1 evaluation: well-formed array-flags
(class byte 1 = mxCELL_CLASS), dimensions [2, 3] and name "a". -/
def c1input : List Nat :=
  [6, 0, 0, 0, 8, 0, 0, 0] ++ [1, 0, 0, 0, 0, 0, 0, 0] ++
  [5, 0, 0, 0, 8, 0, 0, 0] ++ [2, 0, 0, 0, 3, 0, 0, 0] ++
  [1, 0, 0, 0, 1, 0, 0, 0] ++ [97, 0, 0, 0, 0, 0, 0, 0]

/-- Concrete input for the C2 evaluation: one large miMATRIX element with
declared size 0, whose payload parse_array necessarily rejects. -/
def c2bytes : List Nat := [14, 0, 0, 0, 0, 0, 0, 0]

/-- Concrete input for the C3 evaluation: one large miINT8 element declaring
16 payload bytes while 0 bytes remain after the tag. -/
def c3bytes : List Nat := [1, 0, 0, 0, 16, 0, 0, 0]

/-- Concrete real-part region for the C4 witness: a large miDOUBLE tag
declaring 40 bytes followed by 40 payload bytes. -/
def c4real : List Nat := [9, 0, 0, 0, 40, 0, 0, 0] ++ List.replicate 40 7

/-- Inflate oracle for the C7 evaluation: the 4 compressed bytes decompress to
one inner miINT8 element of size 8 with payload [1..8]. -/
def c7inflate : List Nat → Option (List Nat) := fun s =>
  if s = [170, 187, 204, 221] then
    some [1, 0, 0, 0, 8, 0, 0, 0, 1, 2, 3, 4, 5, 6, 7, 8]
  else none

/-- Concrete input for the C7 evaluation: one large miCOMPRESSED element with
declared (compressed) size 4. -/
def c7bytes : List Nat := [15, 0, 0, 0, 4, 0, 0, 0, 170, 187, 204, 221]

/-- Concrete input for the C8 witness: one large miINT8 element of declared
size 5 followed by 3 padding bytes. -/
def c8bytes : List Nat := [1, 0, 0, 0, 5, 0, 0, 0, 9, 9, 9, 9, 9, 0, 0, 0]

theorem tape_push_curLength (t : Tape) (n : Nat) :
    (tape_push t n).curLength = t.curLength + n := by
  unfold tape_push
  split <;> rfl

theorem tape_pushAll_sum (ns : List Nat) (t : Tape) :
    (tape_pushAll t ns).curLength = t.curLength + ns.sum := by
  induction ns generalizing t with
  | nil => simp [tape_pushAll]
  | cons n rest ih =>
      have h := ih (tape_push t n)
      simp only [tape_pushAll, List.foldl_cons] at *
      rw [h, tape_push_curLength, List.sum_cons]
      omega

/-- C5 (code bug): the tape invariant used_length <= capacity is broken by a
single reservation larger than the doubled capacity - tape_push (tape.c:62-75)
doubles max_length exactly once and then commits the reservation regardless.
On a fresh tape of capacity 16, push(100) leaves used_length 100 > capacity
32. -/
theorem c5_tape_invariant_violated :
    (tape_push (tape_create 16) 100).curLength = 100 ∧
    (tape_push (tape_create 16) 100).maxLength = 32 ∧
    ¬ (tape_push (tape_create 16) 100).curLength ≤
        (tape_push (tape_create 16) 100).maxLength := by
  decide

/-- C9 (code bug): after create(16), push(10), push(90) the used length is the
sum 100 of the reservations (that half of the claim holds), but tape_purge
(tape.c:77-94) skips the shrinking realloc because cur_length >= max_length
and returns the 32-byte backing store, not a buffer of used_length bytes. -/
theorem c9_purge_length_mismatch :
    (tape_pushAll (tape_create 16) [10, 90]).curLength = 10 + 90 ∧
    tape_purge_len (tape_pushAll (tape_create 16) [10, 90]) = 32 ∧
    (32 : Nat) ≠ 10 + 90 := by
  decide

/-- C6: an 8-byte tag reinterpreted as (size:u16, type:u16, payload:u32) is
classified small exactly when both size and type are non-zero; the small tag
[size=4][type=6] is classified Small and the large tag [type=9][size=8] is
classified Large. -/
theorem c6_small_large_disambiguation :
    (∀ b0 b1 b2 b3 b4 b5 b6 b7 : Nat,
        matfile_is_small [b0, b1, b2, b3, b4, b5, b6, b7] = true ↔
          (b0 + 256 * b1 ≠ 0 ∧ b2 + 256 * b3 ≠ 0)) ∧
    matfile_is_small [4, 0, 6, 0, 0, 0, 0, 0] = true ∧
    matfile_is_large [9, 0, 0, 0, 8, 0, 0, 0] = true := by
  refine ⟨?_, by decide, by decide⟩
  intro b0 b1 b2 b3 b4 b5 b6 b7
  simp [matfile_is_small, u16At, List.getD]

/-- C10: matfile_is_large is the boolean negation of matfile_is_small (both
expand the IS_SMALL macro, matfile.c:718-726), so exactly one of the two
predicates holds on any raw tag. -/
theorem c10_large_negates_small :
    ∀ tag : List Nat,
      matfile_is_large tag = ! matfile_is_small tag ∧
      ((matfile_is_small tag = true ∧ matfile_is_large tag = false) ∨
        (matfile_is_small tag = false ∧ matfile_is_large tag = true)) := by
  intro tag
  unfold matfile_is_large matfile_is_small
  cases h : (u16At tag 0 != 0 && u16At tag 2 != 0) <;> simp [h]

/-- C1 (code bug): a matrix payload whose array-flags low byte encodes class
1 (mxCELL_CLASS) is NOT rejected: parse_array prints a warning but the switch
arm ends in break, not return NULL (matfile.c:407-414), so a partial array -
flags, dims and name filled in, numerical parts left as uninitialized stack
memory - is returned to the caller. -/
theorem c1_unsupported_class_partial_array :
    parse_array c1input 48 =
      .ok ⟨1, 2, [2, 3], 1, [97], .uninit, .uninit⟩ := by
  decide

/-- C2 (code bug): parse_array rejects the empty payload of the size-0 matrix
element, but parse_data_elements stores the NULL result without checking it
(matfile.c:517-519) and completes successfully with a one-element sequence
whose array pointer is NULL, instead of failing. -/
theorem c2_matrix_failure_not_propagated :
    parse_array ([] : List Nat) 0 = .fail ∧
    parse_data_elements (fun _ => none) c2bytes 8 =
      .ok [.large 14 0 (.arr none)] := by
  exact ⟨by decide, by decide⟩

/-- C3 (code bug): on an element whose declared byte-count (16) exceeds the
bytes remaining after its tag (0), parse_data_elements does not fail - it has
no check of the declared size against the remaining length and memcpys the
declared (padded) size from past the end of the input (matfile.c:522-532),
which the model reports as the out-of-bounds outcome rather than the NULL
return. -/
theorem c3_truncated_region_reads_oob :
    parse_data_elements (fun _ => none) c3bytes 8 = .oob := by
  decide

/-- C7 (code bug): for a compressed element of declared size 4 wrapping an
inner miINT8 element of size 8, the cursor does advance by 8 + 4 unpadded
bytes and the type and size fields are replaced by the inner ones, but the
stored payload is only the first 4 bytes of the 8-byte inner payload: the
post-decompression copy uses the pre-inflation byte-count for malloc and
memcpy (matfile.c:522-532). -/
theorem c7_compressed_payload_truncated :
    parse_data_elements c7inflate c7bytes 12 =
      .ok [.large 1 8 (.bytes [1, 2, 3, 4])] ∧
    c7inflate [170, 187, 204, 221] =
      some ([1, 0, 0, 0, 8, 0, 0, 0] ++ [1, 2, 3, 4, 5, 6, 7, 8]) ∧
    ([1, 2, 3, 4] : List Nat) ≠ [1, 2, 3, 4, 5, 6, 7, 8] := by
  refine ⟨by decide, by decide, by decide⟩

theorem data_type_size_le (ty : Nat) : data_type_size ty ≤ 8 := by
  unfold data_type_size
  repeat' split
  all_goals omega

theorem dimsProdOkAux_spec (dims : List Int) :
    ∀ p : Int, 0 ≤ p → p < 2147483648 → dimsProdOkAux p dims = true →
      dims.foldl (fun a d => i32wrap (a * d)) p = dims.foldl (· * ·) p ∧
      0 ≤ dims.foldl (· * ·) p ∧ dims.foldl (· * ·) p < 2147483648 := by
  induction dims with
  | nil =>
      intro p h0 h1 _
      exact ⟨rfl, h0, h1⟩
  | cons d rest ih =>
      intro p h0 h1 hok
      simp only [dimsProdOkAux, Bool.and_eq_true, decide_eq_true_eq] at hok
      obtain ⟨⟨hq0, hq1⟩, hrest⟩ := hok
      have hw : i32wrap (p * d) = p * d := by
        unfold i32wrap
        have h2 : (p * d + 2147483648) % 4294967296 = p * d + 2147483648 :=
          Int.emod_eq_of_lt (by omega) (by omega)
        omega
      simp only [List.foldl_cons, hw]
      exact ih (p * d) hq0 hq1 hrest

theorem noelemsOf_eq (dims : List Int) (h : dimsProdOk dims = true) :
    noelemsOf dims = dims.foldl (· * ·) 1 ∧
    0 ≤ dims.foldl (· * ·) 1 ∧ dims.foldl (· * ·) 1 < 2147483648 := by
  have hs := dimsProdOkAux_spec dims 1 (by omega) (by omega) h
  exact ⟨hs.1, hs.2⟩

/-- C4: given a sub-element whose tag carries a numeric type and whose
declared size fits inside the stated length (so that the earlier length guards
of parse_numerical_part do not fire first), and dimensions whose int32 product
does not overflow, the function succeeds exactly when the declared size equals
the type byte size times the product of all dimension values, and otherwise
fails with the size-mismatch error (the mismatch stderr path returning NULL,
matfile.c:608-611). -/
theorem c4_numerical_part_size_validation
    (dims : List Int) (real : List Nat) (len sz : Nat)
    (hsz : u32At real 4 = sz)
    (hnum : matfile_is_numerical_type (u32At real 0) = true)
    (hlen : 8 + sz ≤ len) (hreal : len ≤ real.length)
    (hov : dimsProdOk dims = true) :
    ((∃ p k, parse_numerical_part dims real len = .ok p k) ↔
        sz = data_type_size (u32At real 0) * (dims.foldl (· * ·) 1).toNat) ∧
    (sz ≠ data_type_size (u32At real 0) * (dims.foldl (· * ·) 1).toNat →
        parse_numerical_part dims real len = .fail .sizeMismatch) := by
  obtain ⟨hno, hP0, hP1⟩ := noelemsOf_eq dims hov
  have hsizeT : sizeTofInt (noelemsOf dims) = (dims.foldl (· * ·) 1).toNat := by
    rw [hno]
    unfold sizeTofInt
    rw [Int.emod_eq_of_lt hP0 (by omega)]
  have hts : data_type_size (u32At real 0) ≤ 8 := data_type_size_le _
  have hPn : (dims.foldl (· * ·) 1).toNat < 2147483648 := by omega
  have hprod : data_type_size (u32At real 0) * (dims.foldl (· * ·) 1).toNat <
      18446744073709551616 := by
    calc data_type_size (u32At real 0) * (dims.foldl (· * ·) 1).toNat
        ≤ 8 * (dims.foldl (· * ·) 1).toNat := Nat.mul_le_mul_right _ hts
      _ < 18446744073709551616 := by omega
  have hmod : (data_type_size (u32At real 0) * sizeTofInt (noelemsOf dims)) %
      18446744073709551616 =
      data_type_size (u32At real 0) * (dims.foldl (· * ·) 1).toNat := by
    rw [hsizeT]
    exact Nat.mod_eq_of_lt hprod
  have h4 : readU32 real 4 = some sz := by
    unfold readU32
    rw [if_pos (by omega), hsz]
  have h0 : readU32 real 0 = some (u32At real 0) := by
    unfold readU32
    rw [if_pos (by omega)]
  have hrb : readBytes real 8 sz = some ((real.drop 8).take sz) := by
    unfold readBytes
    rw [if_pos (by omega)]
  simp only [parse_numerical_part, if_neg (show ¬ len < 8 by omega), h4,
    if_neg (show ¬ len < 8 + sz by omega), h0, hnum, Bool.not_true,
    Bool.false_eq_true, if_false, hmod]
  by_cases hcase : sz = data_type_size (u32At real 0) * (dims.foldl (· * ·) 1).toNat
  · rw [if_neg (fun hne => hne hcase)]
    simp only [hrb]
    exact ⟨⟨fun _ => hcase, fun _ => ⟨_, _, rfl⟩⟩, fun hne => absurd hcase hne⟩
  · rw [if_pos hcase]
    refine ⟨⟨fun he => ?_, fun he => absurd he hcase⟩, fun _ => rfl⟩
    obtain ⟨p, k, hpk⟩ := he
    exact absurd hpk (by simp)

/-- Witness for C4: dimensions [2, 3] with a double (8 bytes per element)
real part declared as 40 bytes fails with the size-mismatch error. -/
theorem c4_numerical_part_size_validation_witness :
    parse_numerical_part [2, 3] c4real 48 = .fail .sizeMismatch :=
  (c4_numerical_part_size_validation [2, 3] c4real 48 40
      (by decide) (by decide) (by decide) (by decide) (by decide)).2
    (by decide)

/-- C8: at any position holding a large-form tag of valid non-compressed type
with declared byte-count n (with the padded payload inside the input, and, for
a matrix element, the unchecked parse_array call not running off the buffer),
one iteration of parse_data_elements records one element and advances the
cursor by 8 + (n rounded up to the next multiple of 8); the final conjunct
states that n + padOf n is exactly that rounding. -/
theorem c8_cursor_advance (inflate : List Nat → Option (List Nat))
    (bytes : List Nat) (length offset : Nat) (acc : List Element)
    (tag : List Nat) (ty n : Nat)
    (h1 : offset < length)
    (h2 : readBytes bytes offset 8 = some tag)
    (h3 : matfile_is_small tag = false)
    (h4 : u32At tag 0 = ty) (h5 : u32At tag 4 = n)
    (h6 : 1 ≤ ty) (h7 : ty < 19) (h8 : ty ≠ 15)
    (h9 : offset + 8 + (n + padOf n) ≤ bytes.length)
    (h10 : ty = 14 → parse_array (bytes.drop (offset + 8)) n ≠ ArrResult.oob) :
    (∃ e, ∀ fuel, parseLoop inflate bytes length (fuel + 1) offset acc =
        parseLoop inflate bytes length fuel (offset + 8 + (n + padOf n))
          (acc ++ [e])) ∧
    n + padOf n = 8 * ((n + 7) / 8) := by
  subst h4 h5
  refine ⟨?_, by unfold padOf; omega⟩
  have hc1 : ¬ (u32At tag 0 < 1 ∨ 19 ≤ u32At tag 0) := by omega
  by_cases hm : u32At tag 0 = 14
  · rcases hpa : parse_array (bytes.drop (offset + 8)) (u32At tag 4) with _ | _ | a
    · exact absurd hpa (h10 hm)
    · refine ⟨.large 14 (u32At tag 4) (.arr none), fun fuel => ?_⟩
      simp only [parseLoop, h1, if_true, h2, h3, Bool.false_eq_true, if_false,
        if_neg hc1, if_neg h8, if_pos hm, hpa]
    · refine ⟨.large 14 (u32At tag 4) (.arr (some a)), fun fuel => ?_⟩
      simp only [parseLoop, h1, if_true, h2, h3, Bool.false_eq_true, if_false,
        if_neg hc1, if_neg h8, if_pos hm, hpa]
  · have hrb : readBytes bytes (offset + 8) (u32At tag 4 + padOf (u32At tag 4)) =
        some ((bytes.drop (offset + 8)).take (u32At tag 4 + padOf (u32At tag 4))) := by
      unfold readBytes
      rw [if_pos (by omega)]
    refine ⟨.large (u32At tag 0) (u32At tag 4)
      (.bytes ((bytes.drop (offset + 8)).take (u32At tag 4 + padOf (u32At tag 4)))),
      fun fuel => ?_⟩
    simp only [parseLoop, h1, if_true, h2, h3, Bool.false_eq_true, if_false,
      if_neg hc1, if_neg h8, if_neg hm, hrb]

/-- Witness for C8 at the concrete size-5 miINT8 element of c8bytes: the
cursor advances by 8 + 5 + 3 = 16 bytes, not 13. -/
theorem c8_cursor_advance_witness :
    (∃ e, ∀ fuel, parseLoop (fun _ => none) c8bytes 16 (fuel + 1) 0 [] =
        parseLoop (fun _ => none) c8bytes 16 fuel (0 + 8 + (5 + padOf 5))
          ([] ++ [e])) ∧
    5 + padOf 5 = 8 * ((5 + 7) / 8) :=
  c8_cursor_advance (fun _ => none) c8bytes 16 0 [] [1, 0, 0, 0, 5, 0, 0, 0] 1 5
    (by decide) (by decide) (by decide) (by decide) (by decide)
    (by decide) (by decide) (by decide) (by decide)
    (fun h => absurd h (by decide))

end Matfile
